import Mathlib

/-!
Verification of the linkedin-scraper resolution engine.

This file gives a shallow embedding, in Lean, of the pure computational core
of the scraper found in `src/scrape.js`, `src/voyager.js` and `src/server.js`:

* the human-number normalizer `parseHumanNumber`;
* the company-reference normalization `ensureCompanyUrl` and the vanity-slug
  extraction `extractVanity` (together with a small model of the WHATWG `URL`
  constructor restricted to the `http(s)://host/path` shapes the code builds);
* the JSON deep scan `deepFindTotals`, `JSON.stringify`, and the regex-shaped
  searches `findFirstOrgIdInHtml` / the `staffCountRange` scan;
* the identifier cascade `resolveOrgId`, the semi-structured employee-count
  cascade `voyagerEmployeesTotal`, and the merge step of `voyagerScrape`
  (network effects are parameterized by their observed outcomes, and the
  functions additionally return the list of endpoints they consulted);
* the rendered-page pipeline `safeGoto` / `getEmployeeCount` / `scrapeCompany`
  (again parameterized by the outcomes of navigation and extraction).

Modeling conventions: JSON numbers and count arithmetic are modeled exactly
(`Int`, with fractional intermediate values handled as exact rationals where
the code uses `parseFloat`/`Math.round`), and the `Number(digits)` fallback of
the normalizer is modeled as the nearest IEEE binary64 value
(`jsNumberOfDigits`); `String.prototype.toLowerCase` is modeled pointwise on
the ASCII range extended with U+212A (see `jsLowerChar`); fallible operations
return `Except`/`Option`; wall-clock fields (`fetchedAt`) and network pacing
delays are not modeled.
-/

namespace LIScraper

/-! ### Characters and strings -/

/-- The characters matched by the JavaScript regex class `\s` (and trimmed by
`String.prototype.trim`). -/
def jsWsChars : List Char :=
  [Char.ofNat 0x9, Char.ofNat 0xA, Char.ofNat 0xB, Char.ofNat 0xC, Char.ofNat 0xD,
   Char.ofNat 0x20, Char.ofNat 0xA0, Char.ofNat 0x1680, Char.ofNat 0x2000,
   Char.ofNat 0x2001, Char.ofNat 0x2002, Char.ofNat 0x2003, Char.ofNat 0x2004,
   Char.ofNat 0x2005, Char.ofNat 0x2006, Char.ofNat 0x2007, Char.ofNat 0x2008,
   Char.ofNat 0x2009, Char.ofNat 0x200A, Char.ofNat 0x2028, Char.ofNat 0x2029,
   Char.ofNat 0x202F, Char.ofNat 0x205F, Char.ofNat 0x3000, Char.ofNat 0xFEFF]

def isJsWs (c : Char) : Bool := jsWsChars.contains c

/-- The regex class `[0-9]` / `\d`. -/
def isDigitC (c : Char) : Bool := decide (48 ≤ c.toNat ∧ c.toNat ≤ 57)

/-- Model of `String.prototype.toLowerCase`, pointwise. It is exact on the
code points whose lowercase form can influence this program's parsing: the
ASCII uppercase range and U+212A (KELVIN SIGN), the one non-ASCII code point
whose lowercase is an ASCII character the canonical number shape uses (`k`).
Every other code point is kept unchanged: no other code point lowercases to
an ASCII digit, `.`, `k` or `m` (nor to a comma, a plus or whitespace), so
those residual differences can change neither whether the cleaned string
matches the canonical shape nor which digit characters it contains. -/
def jsLowerChar (c : Char) : Char :=
  if 65 ≤ c.toNat ∧ c.toNat ≤ 90 then Char.ofNat (c.toNat + 32)
  else if c.toNat = 0x212A then 'k'
  else c

def lowerChars (cs : List Char) : List Char := cs.map jsLowerChar

/-- Numeric value of a digit string (`Number("...")` on an all-digit string,
modeled exactly). -/
def natOfDigits (ds : List Char) : Nat :=
  ds.foldl (fun a c => a * 10 + (c.toNat - 48)) 0

def digitChar (d : Nat) : Char := Char.ofNat (48 + d % 10)

/-- Decimal digits of a natural number (fuel-based so that it reduces in the
kernel). -/
def natStrAux : Nat → Nat → List Char → List Char
  | 0, _, acc => acc
  | fuel + 1, n, acc => if n = 0 then acc else natStrAux fuel (n / 10) (digitChar (n % 10) :: acc)

/-- Decimal rendering of a natural number (JavaScript number-to-string on
integer values). -/
def natStr (n : Nat) : String := if n = 0 then "0" else String.mk (natStrAux (n + 1) n [])

/-- Decimal rendering of an integer. -/
def intStr (n : Int) : String :=
  if n < 0 then "-" ++ natStr n.natAbs else natStr n.natAbs

/-- Model of `String.prototype.trim`. -/
def jsTrimChars (cs : List Char) : List Char :=
  ((cs.dropWhile isJsWs).reverse.dropWhile isJsWs).reverse

def jsTrim (s : String) : String := String.mk (jsTrimChars s.data)

/-- First-occurrence substring test: `String.prototype.includes`. -/
def containsAt : List Char → List Char → Bool
  | _, [] => true
  | [], _ :: _ => false
  | c :: rest, p => p.isPrefixOf (c :: rest) || containsAt rest p

def strIncludes (hay pat : String) : Bool := containsAt hay.data pat.data

/-- Case-insensitive substring test (a `/.../i` regex on a literal pattern,
with the pattern already written in lowercase). -/
def strIncludesCI (hay pat : String) : Bool := containsAt (lowerChars hay.data) pat.data

/-- List-suffix test used to model the anchored regex `/pat$/`. -/
def endsWithStr (s suffix_ : String) : Bool := suffix_.data.isSuffixOf s.data

/-! ### JavaScript values and truthiness (for `parseHumanNumber` inputs) -/

/-- The JavaScript values `parseHumanNumber` can receive: `null`/`undefined`,
booleans, (integer) numbers and strings. -/
inductive JsVal where
  | vnull : JsVal
  | vundef : JsVal
  | vbool : Bool → JsVal
  | vnum : Int → JsVal
  | vstr : String → JsVal
deriving DecidableEq

def jsTruthyVal : JsVal → Bool
  | .vnull => false
  | .vundef => false
  | .vbool b => b
  | .vnum n => n != 0
  | .vstr s => s != ""

/-- Model of `String(input)`. -/
def jsToString : JsVal → String
  | .vnull => "null"
  | .vundef => "undefined"
  | .vbool true => "true"
  | .vbool false => "false"
  | .vnum n => intStr n
  | .vstr s => s

/-! ### `parseHumanNumber` (src/scrape.js lines 47-61) -/

/-- Model of `cleaned.replace(/\+$/, '')`: drop a single trailing `'+'`. -/
def stripTrailingPlus (cs : List Char) : List Char :=
  if cs.getLast? = some '+' then cs.dropLast else cs

/-- The `cleaned` string of `parseHumanNumber`:
`String(input).trim().toLowerCase().replace(/[,\s]/g, '').replace(/\+$/, '')`. -/
def cleanedOf (s : String) : List Char :=
  stripTrailingPlus
    ((lowerChars (jsTrimChars s.data)).filter (fun c => !(c = ',' || isJsWs c)))

/-- Tail of the anchored regex `^(\d+(?:\.\d+)?)([km])?$` after the numeric
part: either end of input or a single `k`/`m`. -/
def suffixCheck (d1 d2 : List Char) : List Char → Option (List Char × List Char × Option Char)
  | [] => some (d1, d2, none)
  | [c] => if c = 'k' || c = 'm' then some (d1, d2, some c) else none
  | _ => none

/-- Model of `cleaned.match(/^(\d+(?:\.\d+)?)([km])?$/i)`: integer digits, optional
fractional digits, optional magnitude suffix. (The cleaned string is already
lowercase, so the `i` flag is immaterial.) -/
def matchCanonical (cs : List Char) : Option (List Char × List Char × Option Char) :=
  let d1 := cs.takeWhile isDigitC
  let r1 := cs.dropWhile isDigitC
  if d1.isEmpty then none
  else
    match r1 with
    | '.' :: r2 =>
      let d2 := r2.takeWhile isDigitC
      let r3 := r2.dropWhile isDigitC
      if d2.isEmpty then none else suffixCheck d1 d2 r3
    | r1 => suffixCheck d1 [] r1

/-- Model of `Math.round (p / q)` for nonnegative `p / q` (round half towards plus infinity). -/
def roundHalfUp (p q : Nat) : Nat := (2 * p + q) / (2 * q)

/-- Value of a canonical match: `parseFloat(match[1])` scaled by the suffix,
then `Math.round`, computed exactly. -/
def canonicalValue (d1 d2 : List Char) (suf : Option Char) : Nat :=
  let q : Nat := 10 ^ d2.length
  let p : Nat := natOfDigits d1 * q + natOfDigits d2
  let mult : Nat := match suf with
    | some 'k' => 1000
    | some 'm' => 1000000
    | _ => 1
  roundHalfUp (p * mult) q

/-- Bit length of a natural number, with fuel fixed at 1100 — enough for
every value below `2 ^ 1100`, far past the finite double range, and small
enough to reduce in the kernel. -/
def bitLenAux : Nat → Nat → Nat
  | 0, _ => 0
  | fuel + 1, n => if n = 0 then 0 else bitLenAux fuel (n / 2) + 1

def bitLen (n : Nat) : Nat := bitLenAux 1100 n

/-- Rounding of a nonnegative integer to the nearest IEEE-754 binary64 value
(round half to even on a 53-bit significand, unbounded exponent): below
`2 ^ 53` every integer is exact; above, the low `bitLen n - 53` bits are
rounded away. A result at or above `2 ^ 1024` is `Infinity` in JavaScript,
which this model does not represent — theorems over this function therefore
carry the finite-range bound. -/
def roundDoubleNat (n : Nat) : Nat :=
  if n < 2 ^ 53 then n
  else
    let k := bitLen n - 53
    let q := n / 2 ^ k
    let r := n % 2 ^ k
    let half := 2 ^ (k - 1)
    let q2 := if r > half ∨ (r = half ∧ q % 2 = 1) then q + 1 else q
    q2 * 2 ^ k

/-- Model of `Number(digits)` on an all-digit string: its decimal value,
rounded to the nearest double. -/
def jsNumberOfDigits (ds : List Char) : Nat := roundDoubleNat (natOfDigits ds)

/-- Model of `parseHumanNumber` (src/scrape.js lines 47-61). Falsy inputs yield `null`;
a canonical-shape cleaned string is parsed with its magnitude suffix and
rounded; otherwise all remaining digit characters are concatenated and read
as a number — an IEEE double, which rounds once the concatenated value passes
`2 ^ 53` — and `null` results when there are none. -/
def parseHumanNumber (input : JsVal) : Option Int :=
  if jsTruthyVal input = false then none
  else
    let cs := cleanedOf (jsToString input)
    match matchCanonical cs with
    | some (d1, d2, suf) => some (Int.ofNat (canonicalValue d1 d2 suf))
    | none =>
      let ds := cs.filter isDigitC
      if ds.isEmpty then none else some (Int.ofNat (jsNumberOfDigits ds))

/-! ### URL model and identity normalization (src/scrape.js lines 17-45,
src/voyager.js lines 89-108) -/

/-- The parts of a parsed URL that the scraper reads or writes: scheme,
lowercased hostname, and pathname. (The code never builds URLs carrying a
query, fragment or port, so those are dropped by the model.) -/
structure Url where
  scheme : String
  host : String
  path : String
deriving DecidableEq

/-- The regex `/^https?:\/\//i`. -/
def hasHttpScheme (s : String) : Bool :=
  "http://".data.isPrefixOf (lowerChars s.data) || "https://".data.isPrefixOf (lowerChars s.data)

/-- Authority part after the last `'@'` (userinfo stripped, as `new URL`
does). -/
def afterLastAt (cs : List Char) : List Char :=
  (cs.reverse.takeWhile (fun c => c ≠ '@')).reverse

/-- Model of `new URL(s)` restricted to absolute `http(s)` URLs, which is the
only shape the scraper constructs: scheme (case-insensitive), authority up to
the first `/`, `?` or `#` with userinfo and port stripped and the hostname
lowercased, pathname up to `?` or `#` (empty pathname becomes `/`). An empty
hostname throws, modeled as `none`. -/
def parseUrl (s : String) : Option Url :=
  let l := s.data
  let low := lowerChars l
  let rest? : Option (String × List Char) :=
    if "https://".data.isPrefixOf low then some ("https", l.drop 8)
    else if "http://".data.isPrefixOf low then some ("http", l.drop 7)
    else none
  match rest? with
  | none => none
  | some (scheme, rest) =>
    let auth := rest.takeWhile (fun c => !(c = '/' || c = '?' || c = '#'))
    let pathq := rest.dropWhile (fun c => !(c = '/' || c = '?' || c = '#'))
    let host := (afterLastAt auth).takeWhile (fun c => c ≠ ':')
    if host.isEmpty then none
    else
      let path := pathq.takeWhile (fun c => !(c = '?' || c = '#'))
      let path := if path.isEmpty then ['/'] else path
      some { scheme := scheme, host := String.mk (lowerChars host), path := String.mk path }

/-- Model of `url.toString()` on the URL shapes of this model. -/
def urlToString (u : Url) : String := u.scheme ++ "://" ++ u.host ++ u.path

/-- Model of `pathname.split('/').filter(Boolean)`. -/
def splitSegsAux (cur : List Char) (acc : List String) : List Char → List String
  | [] => if cur.isEmpty then acc else acc ++ [String.mk cur.reverse]
  | c :: rest =>
    if c = '/' then
      if cur.isEmpty then splitSegsAux [] acc rest
      else splitSegsAux [] (acc ++ [String.mk cur.reverse]) rest
    else splitSegsAux (c :: cur) acc rest

def splitSegs (p : String) : List String := splitSegsAux [] [] p.data

/-- Model of `hostname.replace(/^www\./, '')`. -/
def stripWww (h : String) : String :=
  if "www.".data.isPrefixOf h.data then String.mk (h.data.drop 4) else h

/-- The host test of `ensureCompanyUrl` (src/scrape.js line 26): the two
anchored regex tests `/linkedin\.com$/i` on the hostname and on the hostname
with a leading `www.` removed. The hostname produced by `parseUrl` is already
lowercase, so the `i` flag is immaterial. -/
def hostAllowed (h : String) : Bool :=
  endsWithStr h "linkedin.com" || endsWithStr (stripWww h) "linkedin.com"

/-- First stage of `ensureCompanyUrl` (src/scrape.js lines 19-23): expand a
bare dot-free slug to the canonical company URL, otherwise prefix a missing
scheme. -/
def prefixCompanyUrl (rawUrl : String) : String :=
  if !hasHttpScheme rawUrl && !strIncludes rawUrl "." then
    "https://www.linkedin.com/company/" ++ rawUrl ++ "/"
  else if !hasHttpScheme rawUrl then "https://" ++ rawUrl
  else rawUrl

/-- Model of `ensureCompanyUrl` (src/scrape.js lines 17-45). Thrown errors are modeled
as `Except.error` carrying the thrown message. -/
def ensureCompanyUrl (rawUrl : String) : Except String String :=
  match parseUrl (prefixCompanyUrl rawUrl) with
  | none => .error "Invalid URL"
  | some url =>
    if !hostAllowed url.host then .error "URL must be a LinkedIn URL"
    else
      let step : Except String Url :=
        if !strIncludesCI url.path "/company/" then
          match splitSegs url.path with
          | [] => .error "Provide a LinkedIn company URL or company slug path."
          | slug :: _ => .ok { url with path := "/company/" ++ slug ++ "/" }
        else .ok url
      match step with
      | .error e => .error e
      | .ok url2 =>
        let url3 := if endsWithStr url2.path "/" then url2
          else { url2 with path := url2.path ++ "/" }
        .ok (urlToString { url3 with host := "www.linkedin.com" })

/-- Model of `s.replace(/\/$/, '')`: drop a single trailing slash. -/
def stripTrailingSlash (s : String) : String :=
  match s.data.reverse with
  | '/' :: rest => String.mk rest.reverse
  | _ => s

/-- Model of `extractVanity` (src/voyager.js lines 89-108). A parse failure (the
`catch`) yields `none`. -/
def extractVanity (inputUrl : String) : Option String :=
  if !hasHttpScheme inputUrl && !strIncludes inputUrl "/" && !strIncludes inputUrl "." then
    some (stripTrailingSlash (jsTrim inputUrl))
  else
    let inputUrl2 :=
      if !hasHttpScheme inputUrl then "https://www.linkedin.com/company/" ++ inputUrl ++ "/"
      else inputUrl
    match parseUrl inputUrl2 with
    | none => none
    | some u =>
      let parts := splitSegs u.path
      let byCompany : Option String :=
        match parts.findIdx? (fun p => String.mk (lowerChars p.data) == "company") with
        | some idx => parts.get? (idx + 1)
        | none => none
      match byCompany with
      | some nxt => some (stripTrailingSlash nxt)
      | none =>
        match parts.head? with
        | some p0 => some (stripTrailingSlash p0)
        | none => none

/-! ### JSON values, `deepFindTotals` (src/voyager.js lines 110-120), and
`JSON.stringify` -/

/-- JSON values as delivered by `response.json()`. Numbers are modeled as
integers (every count the scraper reads is one), which are always finite, so
`Number.isFinite` holds of every `num`. -/
inductive Json where
  | null : Json
  | bool : Bool → Json
  | num : Int → Json
  | str : String → Json
  | arr : List Json → Json
  | obj : List (String × Json) → Json

/-- JavaScript truthiness of a JSON value (objects and arrays are truthy,
including empty ones). -/
def jsTruthyJson : Json → Bool
  | .null => false
  | .bool b => b
  | .num n => n != 0
  | .str s => s != ""
  | .arr _ => true
  | .obj _ => true

/-- The test `v && typeof v === 'object'`: the values recursed into. -/
def isObjLike : Json → Bool
  | .null => false
  | .bool _ => false
  | .num _ => false
  | .str _ => false
  | .arr _ => true
  | .obj _ => true

/-- The key test of `deepFindTotals`: lowercased key equal to one of `total`,
`totalresults`, `totalhits`, `numresults`. -/
def isTotalKey (k : String) : Bool :=
  let lk := String.mk (lowerChars k.data)
  lk == "total" || lk == "totalresults" || lk == "totalhits" || lk == "numresults"

mutual

/-- Model of `deepFindTotals(obj, out)` (src/voyager.js lines 110-120), with the
accumulator threaded exactly as in the source: for each entry of an object the
value is pushed when its key matches and it is a (finite) number, then the
value is recursed into when it is object-like; array entries have numeric
string keys, which never match, so arrays only recurse. -/
def dftJson : Json → List Int → List Int
  | .null, out => out
  | .bool _, out => out
  | .num _, out => out
  | .str _, out => out
  | .arr xs, out => dftElems xs out
  | .obj fs, out => dftFields fs out

/-- Entry loop of `deepFindTotals` over `Object.entries` of an object. -/
def dftFields : List (String × Json) → List Int → List Int
  | [], out => out
  | (k, v) :: rest, out =>
    let out1 := match v with
      | .num n => if isTotalKey k then out ++ [n] else out
      | _ => out
    let out2 := if isObjLike v then dftJson v out1 else out1
    dftFields rest out2

/-- Entry loop of `deepFindTotals` over the entries of an array. -/
def dftElems : List Json → List Int → List Int
  | [], out => out
  | v :: rest, out =>
    let out2 := if isObjLike v then dftJson v out else out
    dftElems rest out2

end

/-- The call `deepFindTotals(json)` as made by the strategies (fresh accumulator). -/
def deepFindTotals (j : Json) : List Int := dftJson j []

mutual

/-- Declarative counterpart of `deepFindTotals`, written from the spec: the
collection of number-typed values whose key (case-insensitively) is one of the
four total-shaped names, gathered at every nesting depth, in document order. -/
def collectJson : Json → List Int
  | .null => []
  | .bool _ => []
  | .num _ => []
  | .str _ => []
  | .arr xs => collectElems xs
  | .obj fs => collectFields fs

/-- Totals contributed by the entries of an object, in order: the entry's own
value when its key is total-shaped and the value is a number, then everything
nested below the value, then the remaining entries. -/
def collectFields : List (String × Json) → List Int
  | [] => []
  | (k, v) :: rest =>
    (match v with
      | .num n => if isTotalKey k then [n] else []
      | _ => []) ++ collectJson v ++ collectFields rest

/-- Totals nested below the elements of an array, in order. -/
def collectElems : List Json → List Int
  | [] => []
  | v :: rest => collectJson v ++ collectElems rest

end

/-- Model of `Math.max(...totals)` over the totals of a scanned response, `none` when
`totals.length` is zero. -/
def maxTotalsOpt (j : Json) : Option Int :=
  match deepFindTotals j with
  | [] => none
  | t :: ts => some (ts.foldl max t)

/-- JSON string escaping for `JSON.stringify` (quote and backslash; the
payloads the scraper stringifies contain no control characters). -/
def escapeJson (s : String) : String :=
  String.mk (s.data.foldr (fun c acc =>
    if c = '"' then '\\' :: '"' :: acc
    else if c = '\\' then '\\' :: '\\' :: acc
    else c :: acc) [])

mutual

/-- Model of `JSON.stringify` (no spacing argument): fields in insertion order. -/
def stringifyJson : Json → String
  | .null => "null"
  | .bool b => if b then "true" else "false"
  | .num n => intStr n
  | .str s => "\"" ++ escapeJson s ++ "\""
  | .arr xs => "[" ++ stringifyElems xs ++ "]"
  | .obj fs => "\x7b" ++ stringifyFields fs ++ "\x7d"

/-- Comma-separated stringification of array elements. -/
def stringifyElems : List Json → String
  | [] => ""
  | [x] => stringifyJson x
  | x :: y :: rest => stringifyJson x ++ "," ++ stringifyElems (y :: rest)

/-- Comma-separated stringification of object fields. -/
def stringifyFields : List (String × Json) → String
  | [] => ""
  | [(k, v)] => "\"" ++ escapeJson k ++ "\":" ++ stringifyJson v
  | (k, v) :: f :: rest =>
    "\"" ++ escapeJson k ++ "\":" ++ stringifyJson v ++ "," ++ stringifyFields (f :: rest)

end

/-! ### Regex-shaped text scans (src/voyager.js lines 79-87, 233) -/

/-- First match of the regex `/<pat>(\d+)/`: scan for the first position where
the literal pattern occurs immediately followed by at least one digit, and
return the maximal digit run there. -/
def findPatDigits (pat : List Char) : List Char → Option (List Char)
  | [] => none
  | c :: rest =>
    if pat.isPrefixOf (c :: rest) then
      let after := (c :: rest).drop pat.length
      let ds := after.takeWhile isDigitC
      if ds.isEmpty then findPatDigits pat rest else some ds
    else findPatDigits pat rest

/-- First match of the regex `/<pat>(\d+)"/` (digits must be followed by a
closing quote). -/
def findPatDigitsQuoted (pat : List Char) : List Char → Option (List Char)
  | [] => none
  | c :: rest =>
    (if pat.isPrefixOf (c :: rest) then
      let after := (c :: rest).drop pat.length
      let ds := after.takeWhile isDigitC
      if !ds.isEmpty && (after.drop ds.length).head? = some '"' then some ds else none
    else none).orElse (fun _ => findPatDigitsQuoted pat rest)

/-- Model of `findFirstOrgIdInHtml` (src/voyager.js lines 79-87): the three ordered
identifier patterns. -/
def findFirstOrgIdInHtml (html : String) : Option String :=
  match findPatDigits "urn:li:organization:".data html.data with
  | some ds => some (String.mk ds)
  | none =>
    match findPatDigits "urn:li:fs_miniCompany:".data html.data with
    | some ds => some (String.mk ds)
    | none =>
      match findPatDigitsQuoted "\"entityUrn\":\"urn:li:organization:".data html.data with
      | some ds => some (String.mk ds)
      | none => none

/-- The regex `/staffCountRange\":\{\"start\":(\d+)/` applied to
`JSON.stringify` of the organization record (src/voyager.js line 233). -/
def staffStartOf (j : Json) : Option Nat :=
  (findPatDigits "staffCountRange\":\x7b\"start\":".data (stringifyJson j).data).map natOfDigits

/-! ### `resolveOrgId` (src/voyager.js lines 122-176)

The three lookups are parameterized by their observed network outcomes
(`Except.error m` = the fetch threw with message `m`); the function
additionally returns the list of lookup endpoints actually fetched. -/

/-- Model of `errors.join('; ')`. -/
def joinSemi : List String → String
  | [] => ""
  | [e] => e
  | e :: f :: rest => e ++ "; " ++ joinSemi (f :: rest)

/-- The message of the error thrown when every step failed
(src/voyager.js line 175). -/
def orgIdErrMsg (errs : List String) : String :=
  "Could not resolve organization ID from company page. Attempts: " ++ joinSemi errs

/-- Step 3 of `resolveOrgId`: the about-page markup scan. -/
def resolveStep3 (errs : List String) (r3 : Except String String) (fetched : List Nat) :
    Except String String × List Nat :=
  match r3 with
  | .ok html =>
    match findFirstOrgIdInHtml html with
    | some id => (.ok id, fetched ++ [3])
    | none =>
      (.error (orgIdErrMsg (errs ++ ["About page method: No org ID found in about page"])),
       fetched ++ [3])
  | .error m =>
    (.error (orgIdErrMsg (errs ++ ["About page method: " ++ m])), fetched ++ [3])

/-- Steps 2 and 3 of `resolveOrgId`: the company-page markup scan, then the
about-page markup scan. -/
def resolveSteps23 (errs : List String) (r2 r3 : Except String String) (fetched : List Nat) :
    Except String String × List Nat :=
  match r2 with
  | .ok html =>
    match findFirstOrgIdInHtml html with
    | some id => (.ok id, fetched ++ [2])
    | none => resolveStep3 (errs ++ ["HTML method: No org ID found in page content"]) r3
        (fetched ++ [2])
  | .error m => resolveStep3 (errs ++ ["HTML method: " ++ m]) r3 (fetched ++ [2])

/-- Model of `resolveOrgId` (src/voyager.js lines 122-176). `r1` is the outcome of the
Voyager vanity-name lookup (a JSON response or a thrown message), `r2`/`r3`
the outcomes of the two HTML fetches. The vanity lookup is only fetched when
a vanity slug is extractable from the input reference. -/
def resolveOrgId (companyUrl : String) (r1 : Except String Json)
    (r2 r3 : Except String String) : Except String String × List Nat :=
  match extractVanity companyUrl with
  | some _ =>
    match r1 with
    | .ok j =>
      if jsTruthyJson j then
        match findFirstOrgIdInHtml (stringifyJson j) with
        | some id => (.ok id, [1])
        | none =>
          resolveSteps23 ["Voyager API method: No org ID found in API response"] r2 r3 [1]
      else resolveSteps23 ["Voyager API method: Empty response"] r2 r3 [1]
    | .error m => resolveSteps23 ["Voyager API method: " ++ m] r2 r3 [1]
  | none =>
    resolveSteps23 ["Voyager API method: Could not extract vanity name from URL"] r2 r3 []

/-- The identifier produced by step 1 alone (for stating the cascade order). -/
def step1Id (companyUrl : String) (r1 : Except String Json) : Option String :=
  match extractVanity companyUrl, r1 with
  | some _, .ok j => if jsTruthyJson j then findFirstOrgIdInHtml (stringifyJson j) else none
  | _, _ => none

/-- The identifier produced by an HTML markup-scan step alone. -/
def htmlStepId (r : Except String String) : Option String :=
  match r with
  | .ok html => findFirstOrgIdInHtml html
  | .error _ => none

/-- The failure reason step 1 appends when it yields no identifier. -/
def step1Err (companyUrl : String) (r1 : Except String Json) : String :=
  match extractVanity companyUrl with
  | none => "Voyager API method: Could not extract vanity name from URL"
  | some _ =>
    match r1 with
    | .error m => "Voyager API method: " ++ m
    | .ok j =>
      if jsTruthyJson j then "Voyager API method: No org ID found in API response"
      else "Voyager API method: Empty response"

/-- The failure reason step 2 appends when it yields no identifier. -/
def step2Err (r2 : Except String String) : String :=
  match r2 with
  | .error m => "HTML method: " ++ m
  | .ok _ => "HTML method: No org ID found in page content"

/-- The failure reason step 3 appends when it yields no identifier. -/
def step3Err (r3 : Except String String) : String :=
  match r3 with
  | .error m => "About page method: " ++ m
  | .ok _ => "About page method: No org ID found in about page"

/-! ### `voyagerEmployeesTotal` (src/voyager.js lines 178-243) -/

/-- Result of one totals-scanning endpoint call (steps 1-3): the thrown error
is swallowed, a falsy response yields nothing, otherwise the maximum of the
deep-scanned totals when there are any. -/
def sourceTotalsValue (r : Except String Json) : Option Int :=
  match r with
  | .error _ => none
  | .ok j => if jsTruthyJson j then maxTotalsOpt j else none

/-- Result of the organization-record step (step 4): a falsy or failed
response yields nothing; otherwise the `staffCountRange` start is returned
when the serialized record matches, else the maximum of the deep-scanned
totals. -/
def orgRecordValue (r : Except String Json) : Option Int :=
  match r with
  | .error _ => none
  | .ok j =>
    if jsTruthyJson j then
      match staffStartOf j with
      | some n => some (Int.ofNat n)
      | none => maxTotalsOpt j
    else none

/-- Model of `voyagerEmployeesTotal` (src/voyager.js lines 178-243), parameterized by
the outcomes of its four endpoint calls, returning the value produced and the
list of endpoints actually called. -/
def voyagerEmployeesTotal (r1 r2 r3 r4 : Except String Json) : Option Int × List Nat :=
  match sourceTotalsValue r1 with
  | some m => (some m, [1])
  | none =>
    match sourceTotalsValue r2 with
    | some m => (some m, [1, 2])
    | none =>
      match sourceTotalsValue r3 with
      | some m => (some m, [1, 2, 3])
      | none => (orgRecordValue r4, [1, 2, 3, 4])

/-! ### `voyagerScrape` (src/voyager.js lines 447-514) -/

/-- The result object of `voyagerScrape` (the `error` field of the source is
called `errMsg` here). -/
structure VoyagerResult where
  orgId : Option String
  employeeCount : Option Int
  associatedMembers : Option Int
  employeeCountRange : Option String
  jobsPostedCount : Option Int
  dataSource : String
  rateLimited : Bool
  errMsg : Option String
deriving DecidableEq

/-- JavaScript truthiness of a nullable number. -/
def jsTruthyOptInt : Option Int → Bool
  | none => false
  | some n => n != 0

/-- The template string `` `${n}+` `` on a nullable number (only ever
evaluated on truthy values in the source). -/
def optIntTemplate : Option Int → String
  | none => "null"
  | some n => intStr n

/-- The merge step of `voyagerScrape` (src/voyager.js lines 487-498):
`associatedMembers ?? employeeCountFallback ?? null` for the count, a
truthiness-guarded `` `${employeeCountFallback}+` `` range, and the
provenance tag. -/
def mergeVoyager (orgId : String)
    (associatedMembers employeeCountFallback jobsPostedCount : Option Int) : VoyagerResult :=
  { orgId := some orgId
    employeeCount := associatedMembers.orElse (fun _ => employeeCountFallback)
    associatedMembers := associatedMembers
    employeeCountRange :=
      if jsTruthyOptInt associatedMembers then none
      else if jsTruthyOptInt employeeCountFallback then
        some (optIntTemplate employeeCountFallback ++ "+")
      else none
    jobsPostedCount := jobsPostedCount
    dataSource :=
      if jsTruthyOptInt associatedMembers then "associated_members"
      else if jsTruthyOptInt employeeCountFallback then "employee_search"
      else "none"
    rateLimited := false
    errMsg := none }

/-- The result `voyagerScrape` returns from its catch block when the caught
message mentions throttling (src/voyager.js lines 500-511). -/
def rateLimitedResult : VoyagerResult :=
  { orgId := none
    employeeCount := none
    associatedMembers := none
    employeeCountRange := none
    jobsPostedCount := none
    dataSource := "rate_limited"
    rateLimited := true
    errMsg := some "LinkedIn rate limiting detected. Please try again later." }

/-- Model of `voyagerScrape` (src/voyager.js lines 447-514), parameterized by the
presence of the `LI_AT` cookie, the outcome of `resolveOrgId`, and the values
of the three metric extractions (each of which has its errors caught and
degraded to `null` in the source, lines 458-485). -/
def voyagerScrape (liAt : Option String) (resolveOutcome : Except String String)
    (associatedMembers employeeCountFallback jobsPostedCount : Option Int) :
    Except String VoyagerResult :=
  match liAt with
  | none => .error "LI_AT cookie required for Voyager mode"
  | some _ =>
    match resolveOutcome with
    | .ok orgId =>
      .ok (mergeVoyager orgId associatedMembers employeeCountFallback jobsPostedCount)
    | .error msg =>
      if strIncludes msg "429" || strIncludes msg "rate limit" then .ok rateLimitedResult
      else .error msg

/-! ### Rendered-page pipeline (src/scrape.js lines 83-128, 265-379, 727-758) -/

/-- The login/challenge check of `safeGoto` (src/scrape.js lines 120-124),
applied to the URL the navigation landed on. Navigation retry failures are
swallowed by the source, so this is the only throw. -/
def safeGoto (finalUrl : String) : Except String Unit :=
  if strIncludes finalUrl "/login" || strIncludes finalUrl "/challenge" then
    .error "LinkedIn authentication required or challenge detected"
  else .ok ()

/-- The employee extraction's result object (src/scrape.js `getEmployeeCount`). -/
structure EmpResult where
  employeeCount : Option Int
  employeeCountRange : Option String
deriving DecidableEq

/-- Observed page environment for one `getEmployeeCount` run: the URLs the two
navigations land on and the outcomes of the successive extraction attempts. -/
structure EmpEnv where
  peopleFinalUrl : String
  assocMembers : Option Int
  linkTok : Option String
  fallbackPats : Option Int
  aboutFinalUrl : String
  aboutRange : Option String
  searchRes : Option EmpResult

/-- The "see all N employees" link branch (src/scrape.js lines 321-328): the
matched token is parsed, and when the parse is truthy the result carries the
count together with the raw token as `employeeCountRange` iff the token ends
in `'+'`; a falsy parse falls through. -/
def linkBranch : Option String → Option EmpResult
  | none => none
  | some t =>
    match parseHumanNumber (.vstr t) with
    | none => none
    | some n =>
      if n != 0 then
        some { employeeCount := some n
               employeeCountRange := if t != "" && endsWithStr t "+" then some t else none }
      else none

/-- Model of `getEmployeeCount` (src/scrape.js lines 265-379), parameterized by the
observed page environment. The two `safeGoto` calls sit in `try`/`finally`
blocks with no `catch`, so their errors propagate. -/
def getEmployeeCount (env : EmpEnv) : Except String EmpResult :=
  match safeGoto env.peopleFinalUrl with
  | .error e => .error e
  | .ok _ =>
    if jsTruthyOptInt env.assocMembers then
      .ok { employeeCount := env.assocMembers, employeeCountRange := none }
    else
      match linkBranch env.linkTok with
      | some r => .ok r
      | none =>
        if jsTruthyOptInt env.fallbackPats then
          .ok { employeeCount := env.fallbackPats, employeeCountRange := none }
        else
          match safeGoto env.aboutFinalUrl with
          | .error e => .error e
          | .ok _ =>
            match env.aboutRange with
            | some rg => .ok { employeeCount := none, employeeCountRange := some rg }
            | none =>
              match env.searchRes with
              | some r => .ok r
              | none => .ok { employeeCount := none, employeeCountRange := none }

/-- The result object of `scrapeCompany` (`fetchedAt` omitted: wall clock). -/
structure ScrapeResult where
  companyUrl : String
  jobsPostedCount : Option Int
  employeeCount : Option Int
  employeeCountRange : Option String
deriving DecidableEq

/-- Model of `scrapeCompany` (src/scrape.js lines 727-758), parameterized by the
outcomes of the two metric extractions run under `Promise.all` (a rejection of
either rejects the whole call; the jobs rejection is taken first when both
reject). The boolean records whether the strategy phase was reached. -/
def scrapeCompany (urlOrSlug : String) (jobsOutcome : Except String (Option Int))
    (empOutcome : Except String EmpResult) : Except String ScrapeResult × Bool :=
  let rawUrl := jsTrim urlOrSlug
  if rawUrl = "" then (.error "Missing LinkedIn company URL", false)
  else
    match ensureCompanyUrl rawUrl with
    | .error e => (.error e, false)
    | .ok companyUrl =>
      match jobsOutcome, empOutcome with
      | .error e, _ => (.error e, true)
      | .ok _, .error e => (.error e, true)
      | .ok j, .ok emp =>
        (.ok { companyUrl := companyUrl
               jobsPostedCount := j
               employeeCount := emp.employeeCount
               employeeCountRange := emp.employeeCountRange }, true)

/-- Modelled from the spec: the "fixed allowed linkedin.com domain family" of
the reference-validation rule — the host `linkedin.com` itself or any of its
subdomains. -/
def inLinkedinDomainFamily (host : String) : Bool :=
  host == "linkedin.com" || endsWithStr host ".linkedin.com"

/-! ## Theorems -/

/-! ### Helper lemmas -/

theorem isDigitC_jsLowerChar {c : Char} (h : isDigitC (jsLowerChar c) = true) :
    isDigitC c = true := by
  unfold jsLowerChar at h
  split at h
  · rename_i hc
    exfalso
    have hvalid : Nat.isValidChar (c.toNat + 32) := by
      left
      omega
    have hval : (Char.ofNat (c.toNat + 32)).toNat = c.toNat + 32 := by
      rw [Char.ofNat, dif_pos hvalid]
      rfl
    simp [isDigitC, hval] at h
    omega
  · split at h
    · exact absurd h (by decide)
    · exact h

theorem mem_stripTrailingPlus {c : Char} {l : List Char} (h : c ∈ stripTrailingPlus l) :
    c ∈ l := by
  unfold stripTrailingPlus at h
  split at h
  · exact (List.dropLast_sublist l).subset h
  · exact h

theorem mem_cleanedOf {c : Char} {s : String} (h : c ∈ cleanedOf s) :
    ∃ c0 ∈ s.data, c = jsLowerChar c0 := by
  have h1 : c ∈ (lowerChars (jsTrimChars s.data)).filter (fun c => !(c = ',' || isJsWs c)) :=
    mem_stripTrailingPlus h
  have h2 : c ∈ lowerChars (jsTrimChars s.data) := (List.mem_filter.mp h1).1
  rcases List.mem_map.mp h2 with ⟨c0, hc0, hlc⟩
  have h3 : c0 ∈ s.data := by
    have hd : jsTrimChars s.data ⊆ s.data := by
      intro x hx
      unfold jsTrimChars at hx
      have hx1 : x ∈ (s.data.dropWhile isJsWs).reverse.dropWhile isJsWs := by simpa using hx
      have hx2 : x ∈ (s.data.dropWhile isJsWs).reverse := (List.dropWhile_sublist _).subset hx1
      have hx3 : x ∈ s.data.dropWhile isJsWs := by simpa using hx2
      exact (List.dropWhile_sublist _).subset hx3
    exact hd hc0
  exact ⟨c0, h3, hlc.symm⟩

/-! ### C4 -/

/-- C4: the numeric normalizer satisfies the six specified test vectors —
`parse("1,234")=1234`, `parse("2.5k")=2500`, `parse("10m")=10000000`,
`parse("500+")=500`, `parse("")=null`, `parse("abc")=null`: thousands
separators and whitespace are stripped, a `k` suffix scales by 1000 and an `m`
suffix by 1000000, a trailing `+` is stripped before parsing, and the result
is rounded to the nearest integer. -/
theorem parseHumanNumber_examples :
    parseHumanNumber (.vstr "1,234") = some 1234 ∧
    parseHumanNumber (.vstr "2.5k") = some 2500 ∧
    parseHumanNumber (.vstr "10m") = some 10000000 ∧
    parseHumanNumber (.vstr "500+") = some 500 ∧
    parseHumanNumber (.vstr "") = none ∧
    parseHumanNumber (.vstr "abc") = none := by
  refine ⟨?_, ?_, ?_, ?_, ?_, ?_⟩ <;> decide

/-! ### C3 -/

/-- C3 counterexample: slug extraction does not yield `"microsoft"` for the
scheme-less reference `"linkedin.com/company/microsoft"` — `extractVanity`
wraps any scheme-less input as if it were a bare slug, so the first path
segment after `company` becomes `"linkedin.com"`. -/
theorem extractVanity_schemeless_url_cex :
    extractVanity "linkedin.com/company/microsoft" = some "linkedin.com" ∧
    extractVanity "linkedin.com/company/microsoft" ≠ some "microsoft" := by
  refine ⟨rfl, ?_⟩
  decide

/-- C3 (amended): `ensureCompanyUrl` maps all three reference forms to the
same canonical URL `"https://www.linkedin.com/company/microsoft/"`, and
`extractVanity` yields `"microsoft"` for the bare slug and for the full URL
with scheme, but yields `"linkedin.com"` for the scheme-less URL form. -/
theorem identity_normalization_amended :
    ensureCompanyUrl "microsoft" = .ok "https://www.linkedin.com/company/microsoft/" ∧
    ensureCompanyUrl "linkedin.com/company/microsoft"
      = .ok "https://www.linkedin.com/company/microsoft/" ∧
    ensureCompanyUrl "https://www.linkedin.com/company/microsoft/"
      = .ok "https://www.linkedin.com/company/microsoft/" ∧
    extractVanity "microsoft" = some "microsoft" ∧
    extractVanity "https://www.linkedin.com/company/microsoft/" = some "microsoft" ∧
    extractVanity "linkedin.com/company/microsoft" = some "linkedin.com" :=
  ⟨rfl, rfl, rfl, rfl, rfl, rfl⟩

/-! ### C1 -/

/-- C1 counterexample: when the exact associated-members figure is absent but
the fallback search total is present, the merge step of `voyagerScrape` sets
both `employeeCount = 500` and `employeeCountRange = "500+"`; the browser-side
link branch likewise returns both fields for the matched token `"500+"`. -/
theorem voyagerScrape_both_fields_cex :
    voyagerScrape (some "tok") (.ok "1") none (some 500) none
      = .ok (mergeVoyager "1" none (some 500) none) ∧
    (mergeVoyager "1" none (some 500) none).employeeCount = some 500 ∧
    (mergeVoyager "1" none (some 500) none).employeeCountRange = some "500+" ∧
    linkBranch (some "500+")
      = some { employeeCount := some 500, employeeCountRange := some "500+" } :=
  ⟨rfl, rfl, rfl, rfl⟩

/-- C1 (amended): an exact associated-members figure supersedes the range —
when it is truthy the merged `employeeCountRange` is null and the provenance
is `"associated_members"`; but when it is absent and only the fallback total
is truthy, the merge returns both `employeeCount = N` and
`employeeCountRange = "N+"`, and the browser employee extraction's link
branch returns both the parsed count and the raw matched token as the range
whenever the token ends in `'+'` — so a non-null `employeeCount` does not
imply a null `employeeCountRange`. -/
theorem mergeVoyager_range_policy :
    (∀ orgId am ef jc, jsTruthyOptInt am = true →
      (mergeVoyager orgId am ef jc).employeeCountRange = none ∧
      (mergeVoyager orgId am ef jc).dataSource = "associated_members") ∧
    (∀ orgId ef jc, jsTruthyOptInt ef = true →
      (mergeVoyager orgId none ef jc).employeeCount = ef ∧
      (mergeVoyager orgId none ef jc).employeeCountRange
        = some (optIntTemplate ef ++ "+")) ∧
    (∀ t n, parseHumanNumber (.vstr t) = some n → (n != 0) = true →
      endsWithStr t "+" = true → (t != "") = true →
      linkBranch (some t)
        = some { employeeCount := some n, employeeCountRange := some t }) := by
  refine ⟨?_, ?_, ?_⟩
  · intro orgId am ef jc h
    constructor
    · simp [mergeVoyager, h]
    · simp [mergeVoyager, h]
  · intro orgId ef jc h
    have hnone : jsTruthyOptInt none = false := rfl
    constructor
    · simp [mergeVoyager, Option.orElse]
    · simp [mergeVoyager, h, hnone]
  · intro t n hp hn hplus hne
    simp [linkBranch, hp, hn, hplus, hne]

/-- C1 witness. -/
theorem mergeVoyager_range_policy_witness :
    (mergeVoyager "9" (some 250) (some 700) none).employeeCountRange = none ∧
    (mergeVoyager "9" none (some 700) none).employeeCount = some 700 ∧
    (mergeVoyager "9" none (some 700) none).employeeCountRange = some "700+" ∧
    linkBranch (some "2k+")
      = some { employeeCount := some 2000, employeeCountRange := some "2k+" } := by
  refine ⟨(mergeVoyager_range_policy.1 "9" (some 250) (some 700) none (by decide)).1, ?_, ?_, ?_⟩
  · exact (mergeVoyager_range_policy.2.1 "9" (some 700) none (by decide)).1
  · have h := (mergeVoyager_range_policy.2.1 "9" (some 700) none (by decide)).2
    rw [h]
    rfl
  · exact mergeVoyager_range_policy.2.2 "2k+" 2000 (by decide) (by decide) (by decide) (by decide)

/-! ### C5 -/

/-- C5 counterexample: an `HTTP 429` failure on the first semi-structured
employee-count call does not short-circuit — the remaining three candidate
endpoints are still called ([1, 2, 3, 4]), and the overall result's
`dataSource` is `"none"`, not `"rate_limited"`. -/
theorem voyager_429_midcascade_cex :
    (voyagerEmployeesTotal
        (.error "HTTP 429 for https://www.linkedin.com/voyager/api/organization/companies/1/people?count=0")
        (.error "HTTP 429 for u2") (.error "HTTP 429 for u3") (.error "HTTP 429 for u4")).2
      = [1, 2, 3, 4] ∧
    voyagerScrape (some "tok") (.ok "1") none none none
      = .ok (mergeVoyager "1" none none none) ∧
    (mergeVoyager "1" none none none).dataSource = "none" ∧
    (mergeVoyager "1" none none none).rateLimited = false :=
  ⟨rfl, rfl, rfl, rfl⟩

/-- C5 (amended): a thrown failure (such as HTTP 429) on the first
semi-structured employee-count call is swallowed per candidate — the second
endpoint is always still called; `dataSource = "rate_limited"` is produced
only when organization-ID resolution itself fails with a message containing
`429` (or `rate limit`), in which case `voyagerScrape` returns the
rate-limited result object instead of throwing. -/
theorem throttle_handling_amended :
    (∀ e r2 r3 r4, 2 ∈ (voyagerEmployeesTotal (.error e) r2 r3 r4).2) ∧
    (∀ liat msg am ef jc, strIncludes msg "429" = true →
      voyagerScrape (some liat) (.error msg) am ef jc = .ok rateLimitedResult) ∧
    rateLimitedResult.dataSource = "rate_limited" := by
  refine ⟨?_, ?_, rfl⟩
  · intro e r2 r3 r4
    unfold voyagerEmployeesTotal
    have h1 : sourceTotalsValue (.error e) = none := rfl
    rw [h1]
    rcases h2 : sourceTotalsValue r2 with _ | m
    · rcases h3 : sourceTotalsValue r3 with _ | m3
      · simp
      · simp
    · simp
  · intro liat msg am ef jc h
    simp [voyagerScrape, h]

/-- C5 witness. -/
theorem throttle_handling_amended_witness :
    2 ∈ (voyagerEmployeesTotal (.error "HTTP 429 for u") (.error "x") (.error "x")
        (.error "x")).2 ∧
    voyagerScrape (some "tok") (.error "HTTP 429 for u") none none none
      = .ok rateLimitedResult :=
  ⟨throttle_handling_amended.1 "HTTP 429 for u" (.error "x") (.error "x") (.error "x"),
   throttle_handling_amended.2.1 "tok" "HTTP 429 for u" none none none (by decide)⟩

/-! ### C7 counterexample -/

/-- C7 counterexample: on an organization record containing both a
`staffCountRange` start of 5 and a `total` of 100, the fourth source of the
employee-count cascade returns 5 — not the maximum (100) of the totals it
found, and not a total at all. -/
theorem orgRecord_staffRange_cex :
    voyagerEmployeesTotal (.error "x") (.error "x") (.error "x")
        (.ok (Json.obj [("staffCountRange", Json.obj [("start", Json.num 5)]),
          ("total", Json.num 100)]))
      = (some 5, [1, 2, 3, 4]) ∧
    deepFindTotals (Json.obj [("staffCountRange", Json.obj [("start", Json.num 5)]),
        ("total", Json.num 100)]) = [100] ∧
    (5 : Int) ∉ deepFindTotals (Json.obj [("staffCountRange", Json.obj [("start", Json.num 5)]),
        ("total", Json.num 100)]) := by
  refine ⟨rfl, rfl, ?_⟩
  decide

/-! ### C8 -/

/-- C8 counterexample: a people-page navigation landing on a login URL makes
`getEmployeeCount` throw the authentication error, and `scrapeCompany`
rejects with that same error rather than completing with a result. -/
theorem auth_redirect_propagates_cex :
    getEmployeeCount
      { peopleFinalUrl := "https://www.linkedin.com/login",
        assocMembers := none, linkTok := none, fallbackPats := none,
        aboutFinalUrl := "https://www.linkedin.com/company/microsoft/about/",
        aboutRange := none, searchRes := none }
      = .error "LinkedIn authentication required or challenge detected" ∧
    scrapeCompany "microsoft" (.ok (some 3))
      (getEmployeeCount
        { peopleFinalUrl := "https://www.linkedin.com/login",
          assocMembers := none, linkTok := none, fallbackPats := none,
          aboutFinalUrl := "https://www.linkedin.com/company/microsoft/about/",
          aboutRange := none, searchRes := none })
      = (.error "LinkedIn authentication required or challenge detected", true) :=
  ⟨rfl, rfl⟩

/-- C8 (amended): a navigation that ends on a login or challenge path raises
the authentication-required error, but the error is not strategy-local: the
employee extraction has no catch around its navigations, so the error
propagates out of `getEmployeeCount`, and `scrapeCompany` rejects with it
instead of returning a result to the caller. -/
theorem auth_redirect_amended :
    (∀ url, strIncludes url "/login" = true ∨ strIncludes url "/challenge" = true →
      safeGoto url = .error "LinkedIn authentication required or challenge detected") ∧
    (∀ env e, safeGoto env.peopleFinalUrl = .error e → getEmployeeCount env = .error e) ∧
    (∀ raw j e, jsTrim raw ≠ "" → ∀ c, ensureCompanyUrl (jsTrim raw) = .ok c →
      scrapeCompany raw (.ok j) (.error e) = (.error e, true)) := by
  refine ⟨?_, ?_, ?_⟩
  · intro url h
    rcases h with h | h
    · simp [safeGoto, h]
    · simp [safeGoto, h]
  · intro env e h
    unfold getEmployeeCount
    rw [h]
  · intro raw j e hne c hok
    unfold scrapeCompany
    rw [if_neg hne, hok]

/-- C8 witness. -/
theorem auth_redirect_amended_witness :
    safeGoto "https://www.linkedin.com/checkpoint/challenge/x"
      = .error "LinkedIn authentication required or challenge detected" ∧
    getEmployeeCount
      { peopleFinalUrl := "https://www.linkedin.com/uas/login?x",
        assocMembers := some 10, linkTok := none, fallbackPats := none,
        aboutFinalUrl := "a", aboutRange := none, searchRes := none }
      = .error "LinkedIn authentication required or challenge detected" ∧
    scrapeCompany "microsoft" (.ok none) (.error "boom") = (.error "boom", true) := by
  refine ⟨auth_redirect_amended.1 _ (Or.inr (by decide)), ?_, ?_⟩
  · exact auth_redirect_amended.2.1
      { peopleFinalUrl := "https://www.linkedin.com/uas/login?x",
        assocMembers := some 10, linkTok := none, fallbackPats := none,
        aboutFinalUrl := "a", aboutRange := none, searchRes := none } _ rfl
  · exact auth_redirect_amended.2.2 "microsoft" none "boom" (by decide)
      "https://www.linkedin.com/company/microsoft/" rfl

/-! ### C6 -/

theorem endsWith_of_stripWww {h : String}
    (hs : endsWithStr (stripWww h) "linkedin.com" = true) :
    endsWithStr h "linkedin.com" = true := by
  unfold stripWww at hs
  split at hs
  · rename_i hpre
    have hp : "www.".data <+: h.data := List.isPrefixOf_iff_prefix.mp hpre
    rcases hp with ⟨t, ht⟩
    unfold endsWithStr at hs ⊢
    rw [List.isSuffixOf_iff_suffix] at hs ⊢
    have hdrop : h.data.drop 4 = t := by
      rw [← ht]
      exact List.drop_left "www.".data t
    have hs2 : "linkedin.com".data <:+ t := by
      simpa [hdrop] using hs
    have hterm : t <:+ h.data := by
      rw [← ht]
      exact List.suffix_append "www.".data t
    exact hs2.trans hterm
  · exact hs

/-- C6 counterexample: the host check is a bare `linkedin.com` suffix test, so
the lookalike host `evillinkedin.com` — which is outside the linkedin.com
domain family — is accepted rather than rejected: normalization succeeds and
the acquisition phase of `scrapeCompany` is still reached. -/
theorem host_lookalike_accepted_cex :
    ensureCompanyUrl "https://evillinkedin.com/company/acme/"
      = .ok "https://www.linkedin.com/company/acme/" ∧
    inLinkedinDomainFamily "evillinkedin.com" = false ∧
    (scrapeCompany "https://evillinkedin.com/company/acme/" (.ok none)
        (.ok { employeeCount := none, employeeCountRange := none })).2 = true := by
  refine ⟨rfl, ?_, rfl⟩
  decide

/-- C6 (amended): the set of hosts `ensureCompanyUrl` accepts is exactly those
whose lowercased hostname ends with the string `linkedin.com` — every other
host makes normalization throw `"URL must be a LinkedIn URL"`, in which case
`scrapeCompany` propagates the error without attempting any acquisition; but
because the test is a bare suffix match, lookalike hosts outside the
linkedin.com domain family (such as `evillinkedin.com`) are also accepted. -/
theorem ensureCompanyUrl_host_gate :
    (∀ raw url, parseUrl (prefixCompanyUrl raw) = some url →
      hostAllowed url.host = false →
      ensureCompanyUrl raw = .error "URL must be a LinkedIn URL") ∧
    (∀ raw out, ensureCompanyUrl raw = .ok out →
      ∃ url, parseUrl (prefixCompanyUrl raw) = some url ∧
        endsWithStr url.host "linkedin.com" = true) ∧
    (∀ raw jobs emp e, ensureCompanyUrl (jsTrim raw) = .error e →
      scrapeCompany raw jobs emp = (.error e, false)) := by
  refine ⟨?_, ?_, ?_⟩
  · intro raw url hp hfail
    unfold ensureCompanyUrl
    rw [hp]
    simp [hfail]
  · intro raw out hok
    unfold ensureCompanyUrl at hok
    rcases hp : parseUrl (prefixCompanyUrl raw) with _ | url
    · rw [hp] at hok
      simp at hok
    · rw [hp] at hok
      refine ⟨url, rfl, ?_⟩
      by_cases hall : hostAllowed url.host = true
      · unfold hostAllowed at hall
        rcases Bool.or_eq_true_iff.mp hall with h | h
        · exact h
        · exact endsWith_of_stripWww h
      · rw [Bool.not_eq_true] at hall
        simp [hall] at hok
  · intro raw jobs emp e he
    unfold scrapeCompany
    by_cases h0 : jsTrim raw = ""
    · rw [h0] at he
      rw [show ensureCompanyUrl "" = .ok "https://www.linkedin.com/company//" from rfl] at he
      exact Except.noConfusion he
    · rw [if_neg h0, he]

/-- C6 witness. -/
theorem ensureCompanyUrl_host_gate_witness :
    ensureCompanyUrl "https://google.com/company/x/"
      = .error "URL must be a LinkedIn URL" ∧
    scrapeCompany "https://google.com/company/x/" (.ok none)
        (.ok { employeeCount := none, employeeCountRange := none })
      = (.error "URL must be a LinkedIn URL", false) := by
  constructor
  · exact ensureCompanyUrl_host_gate.1 "https://google.com/company/x/"
      { scheme := "https", host := "google.com", path := "/company/x/" } rfl (by decide)
  · exact ensureCompanyUrl_host_gate.2.2 "https://google.com/company/x/" (.ok none)
      (.ok { employeeCount := none, employeeCountRange := none })
      "URL must be a LinkedIn URL" rfl

/-! ### C9 -/

theorem cleanedOf_no_digits {s : String} (h : ∀ c ∈ s.data, isDigitC c = false) :
    ∀ c ∈ cleanedOf s, isDigitC c = false := by
  intro c hc
  rcases mem_cleanedOf hc with ⟨c0, hc0, hlc⟩
  cases hd : isDigitC c with
  | false => rfl
  | true =>
    exfalso
    rw [hlc] at hd
    have h2 := isDigitC_jsLowerChar hd
    rw [h c0 hc0] at h2
    exact Bool.noConfusion h2

theorem matchCanonical_eq_none_of_no_digits {cs : List Char}
    (h : ∀ c ∈ cs, isDigitC c = false) : matchCanonical cs = none := by
  have hd1 : cs.takeWhile isDigitC = [] := by
    cases cs with
    | nil => rfl
    | cons a l =>
      rw [List.takeWhile_cons, h a (List.mem_cons_self a l)]
      simp
  simp [matchCanonical, hd1]

/-- C9: the numeric normalizer is total and never throws — every input
(numbers, booleans, null, and arbitrary strings including the empty string and
unicode text) yields either an integer or `null`, and any string with no digit
character yields `null`. -/
theorem parseHumanNumber_total_safe :
    (∀ v : JsVal, parseHumanNumber v = none ∨ ∃ n : Int, parseHumanNumber v = some n) ∧
    (∀ s : String, (∀ c ∈ s.data, isDigitC c = false) →
      parseHumanNumber (.vstr s) = none) := by
  constructor
  · intro v
    rcases h : parseHumanNumber v with _ | n
    · exact Or.inl rfl
    · exact Or.inr ⟨n, rfl⟩
  · intro s h
    by_cases hs : s = ""
    · subst hs
      rfl
    · have hclean := cleanedOf_no_digits h
      have hmc := matchCanonical_eq_none_of_no_digits hclean
      have hfilter : (cleanedOf s).filter isDigitC = [] :=
        List.filter_eq_nil_iff.mpr (fun a ha => by simp [hclean a ha])
      have hs2 : jsTruthyVal (.vstr s) = true := by
        simp [jsTruthyVal, hs]
      simp [parseHumanNumber, jsToString, hs2, hmc, hfilter]

/-- C9 witness. -/
theorem parseHumanNumber_total_safe_witness :
    parseHumanNumber (.vstr "héllo — wörld") = none ∧
    (parseHumanNumber (.vnum 42) = none ∨ ∃ n, parseHumanNumber (.vnum 42) = some n) :=
  ⟨parseHumanNumber_total_safe.2 "héllo — wörld" (by decide),
   parseHumanNumber_total_safe.1 (.vnum 42)⟩

/-! ### C10 -/

/-- C10 counterexample: the normalizer does not return the integer formed by
concatenating the digit characters once that integer leaves the exactly
representable double range. For `"x99999999999999999999"` the cleaned form is
non-canonical and its digit concatenation is the 20-digit integer
`99999999999999999999`, but the fallback `Number("99999999999999999999")`
rounds to the nearest double, `100000000000000000000`, so the program returns
that value and not the concatenated integer. -/
theorem parseHumanNumber_digit_overflow_cex :
    parseHumanNumber (.vstr "x99999999999999999999") = some 100000000000000000000 ∧
    parseHumanNumber (.vstr "x99999999999999999999") ≠ some 99999999999999999999 ∧
    natOfDigits ((cleanedOf "x99999999999999999999").filter isDigitC)
      = 99999999999999999999 := by
  refine ⟨?_, ?_, ?_⟩ <;> decide

/-- C10 (amended): for every string whose cleaned form (lowercased, commas
and whitespace stripped, one trailing `+` dropped) does not match the
canonical `digits[.digits][k|m]` shape but still contains at least one digit
character, the normalizer returns `Number(d)` for the concatenation `d` of
its digit characters in order — the nearest IEEE double to that integer
(stated on the finite double range), which coincides with the exact
concatenated integer only while it stays below `2 ^ 53`; moreover full
lowercasing can move an input into the canonical branch instead, as with
`"12\u212A"` (KELVIN SIGN), which cleans to `"12k"` and yields `12000`. -/
theorem parseHumanNumber_digit_fallback :
    (∀ s : String, matchCanonical (cleanedOf s) = none →
      (cleanedOf s).filter isDigitC ≠ [] →
      jsNumberOfDigits ((cleanedOf s).filter isDigitC) < 2 ^ 1024 →
      parseHumanNumber (.vstr s)
        = some (Int.ofNat (jsNumberOfDigits ((cleanedOf s).filter isDigitC)))) ∧
    (∀ ds : List Char, natOfDigits ds < 2 ^ 53 →
      jsNumberOfDigits ds = natOfDigits ds) ∧
    parseHumanNumber (.vstr "12\u212A") = some 12000 := by
  refine ⟨?_, ?_, by decide⟩
  · intro s hmc hne _hfin
    by_cases hs : s = ""
    · subst hs
      exact absurd rfl hne
    · have hs2 : jsTruthyVal (.vstr s) = true := by
        simp [jsTruthyVal, hs]
      have hemp : ((cleanedOf s).filter isDigitC).isEmpty = false := by
        rcases hfe : (cleanedOf s).filter isDigitC with _ | ⟨a, l⟩
        · exact absurd hfe hne
        · rfl
      simp [parseHumanNumber, jsToString, hs2, hmc, hemp]
  · intro ds h
    unfold jsNumberOfDigits roundDoubleNat
    rw [if_pos h]

theorem jsNumberOfDigits_lt_finite {ds : List Char} (h : natOfDigits ds < 2 ^ 53) :
    jsNumberOfDigits ds < 2 ^ 1024 := by
  have heq : jsNumberOfDigits ds = natOfDigits ds := by
    unfold jsNumberOfDigits roundDoubleNat
    rw [if_pos h]
  rw [heq]
  calc natOfDigits ds < 2 ^ 53 := h
  _ ≤ 2 ^ 1024 := Nat.pow_le_pow_right (by decide) (by decide)

/-- C10 witness: `"1.5x2"` yields 152 and `"v1.2.3"` yields 123, both inside
the exact range. -/
theorem parseHumanNumber_digit_fallback_witness :
    parseHumanNumber (.vstr "1.5x2") = some 152 ∧
    parseHumanNumber (.vstr "v1.2.3") = some 123 ∧
    jsNumberOfDigits ['1', '5', '2'] = natOfDigits ['1', '5', '2'] := by
  refine ⟨?_, ?_, parseHumanNumber_digit_fallback.2.1 ['1', '5', '2'] (by decide)⟩
  · have h := parseHumanNumber_digit_fallback.1 "1.5x2" (by decide) (by decide)
      (jsNumberOfDigits_lt_finite (by decide))
    rw [h]
    decide
  · have h := parseHumanNumber_digit_fallback.1 "v1.2.3" (by decide) (by decide)
      (jsNumberOfDigits_lt_finite (by decide))
    rw [h]
    decide

/-! ### C7 (amended theorem) -/

mutual

theorem dftJson_eq : ∀ (j : Json) (out : List Int), dftJson j out = out ++ collectJson j
  | .null, out => by simp [dftJson, collectJson]
  | .bool b, out => by simp [dftJson, collectJson]
  | .num n, out => by simp [dftJson, collectJson]
  | .str s, out => by simp [dftJson, collectJson]
  | .arr xs, out => by simp [dftJson, collectJson, dftElems_eq xs out]
  | .obj fs, out => by simp [dftJson, collectJson, dftFields_eq fs out]

theorem dftFields_eq : ∀ (fs : List (String × Json)) (out : List Int),
    dftFields fs out = out ++ collectFields fs
  | [], out => by simp [dftFields, collectFields]
  | (k, v) :: rest, out => by
    have hv := dftJson_eq v
    have hrest := dftFields_eq rest
    cases v with
    | num n =>
      by_cases hk : isTotalKey k = true
      · simp [dftFields, collectFields, isObjLike, collectJson, hk, hrest]
      · simp [dftFields, collectFields, isObjLike, collectJson, hk, hrest]
    | null => simp [dftFields, collectFields, isObjLike, collectJson, hrest]
    | bool b => simp [dftFields, collectFields, isObjLike, collectJson, hrest]
    | str s => simp [dftFields, collectFields, isObjLike, collectJson, hrest]
    | arr xs => simp [dftFields, collectFields, isObjLike, hrest, hv]
    | obj fs2 => simp [dftFields, collectFields, isObjLike, hrest, hv]

theorem dftElems_eq : ∀ (xs : List Json) (out : List Int),
    dftElems xs out = out ++ collectElems xs
  | [], out => by simp [dftElems, collectElems]
  | v :: rest, out => by
    have hv := dftJson_eq v
    have hrest := dftElems_eq rest
    cases v with
    | null => simp [dftElems, collectElems, isObjLike, collectJson, hrest]
    | bool b => simp [dftElems, collectElems, isObjLike, collectJson, hrest]
    | num n => simp [dftElems, collectElems, isObjLike, collectJson, hrest]
    | str s => simp [dftElems, collectElems, isObjLike, collectJson, hrest]
    | arr xs2 => simp [dftElems, collectElems, isObjLike, hrest, hv]
    | obj fs2 => simp [dftElems, collectElems, isObjLike, hrest, hv]

end

theorem le_foldl_max_init (ts : List Int) : ∀ t : Int, t ≤ ts.foldl max t := by
  induction ts with
  | nil => intro t; exact le_refl t
  | cons a ts ih =>
    intro t
    calc t ≤ max t a := le_max_left t a
    _ ≤ (a :: ts).foldl max t := by
      rw [List.foldl_cons]
      exact ih (max t a)

theorem foldl_max_le (ts : List Int) : ∀ t x : Int, (x = t ∨ x ∈ ts) → x ≤ ts.foldl max t := by
  induction ts with
  | nil =>
    intro t x h
    rcases h with h | h
    · exact le_of_eq h
    · cases h
  | cons a ts ih =>
    intro t x h
    rw [List.foldl_cons]
    rcases h with h | h
    · subst h
      calc x ≤ max x a := le_max_left x a
      _ ≤ ts.foldl max (max x a) := le_foldl_max_init ts (max x a)
    · rcases List.mem_cons.mp h with h | h
      · subst h
        calc x ≤ max t x := le_max_right t x
        _ ≤ ts.foldl max (max t x) := le_foldl_max_init ts (max t x)
      · exact ih (max t a) x (Or.inr h)

theorem foldl_max_mem (ts : List Int) : ∀ t : Int, ts.foldl max t = t ∨ ts.foldl max t ∈ ts := by
  induction ts with
  | nil => intro t; exact Or.inl rfl
  | cons a ts ih =>
    intro t
    rw [List.foldl_cons]
    rcases ih (max t a) with h | h
    · rcases max_choice t a with hm | hm
      · left
        rw [h, hm]
      · right
        rw [h, hm]
        exact List.mem_cons_self a ts
    · right
      exact List.mem_cons_of_mem a h

theorem maxTotalsOpt_spec (j : Json) :
    ∀ m, maxTotalsOpt j = some m → m ∈ deepFindTotals j ∧ ∀ x ∈ deepFindTotals j, x ≤ m := by
  intro m hm
  unfold maxTotalsOpt at hm
  rcases hd : deepFindTotals j with _ | ⟨t, ts⟩
  · rw [hd] at hm
    exact Option.noConfusion hm
  · rw [hd] at hm
    have hmval : ts.foldl max t = m := Option.some.inj hm
    constructor
    · rw [← hmval]
      rcases foldl_max_mem ts t with h | h
      · rw [h]
        exact List.mem_cons_self t ts
      · exact List.mem_cons_of_mem t h
    · intro x hx
      rw [← hmval]
      rcases List.mem_cons.mp hx with h | h
      · exact foldl_max_le ts t x (Or.inl h)
      · exact foldl_max_le ts t x (Or.inr h)

/-- C7 (amended): `deepFindTotals` returns exactly the collection of
number-typed values whose key (case-insensitively) is `total`, `totalResults`,
`totalHits` or `numResults`, gathered at every nesting depth; the returned
maximum really is the greatest of those totals; and the employee-count
strategy queries its four sources in the fixed order people-total endpoint,
blended people search, guided people cluster, then organization record — each
of the first three stopping the cascade when it yields totals and returning
their maximum, while the fourth source first returns a `staffCountRange`
start value whenever the serialized record matches one, and only otherwise
the maximum of its totals. -/
theorem deepFindTotals_cascade_amended :
    (∀ j, deepFindTotals j = collectJson j) ∧
    (∀ j m, maxTotalsOpt j = some m → m ∈ deepFindTotals j ∧ ∀ x ∈ deepFindTotals j, x ≤ m) ∧
    (∀ r1 r2 r3 r4,
      voyagerEmployeesTotal r1 r2 r3 r4
        = ((sourceTotalsValue r1).orElse (fun _ => (sourceTotalsValue r2).orElse
            (fun _ => (sourceTotalsValue r3).orElse (fun _ => orgRecordValue r4))),
           if (sourceTotalsValue r1).isSome then [1]
           else if (sourceTotalsValue r2).isSome then [1, 2]
           else if (sourceTotalsValue r3).isSome then [1, 2, 3]
           else [1, 2, 3, 4])) := by
  refine ⟨?_, maxTotalsOpt_spec, ?_⟩
  · intro j
    have h := dftJson_eq j []
    simpa [deepFindTotals] using h
  · intro r1 r2 r3 r4
    unfold voyagerEmployeesTotal
    rcases h1 : sourceTotalsValue r1 with _ | m1
    · rcases h2 : sourceTotalsValue r2 with _ | m2
      · rcases h3 : sourceTotalsValue r3 with _ | m3
        · simp [Option.orElse]
        · simp [Option.orElse]
      · simp [Option.orElse]
    · simp [Option.orElse]

/-- C7 witness. -/
theorem deepFindTotals_cascade_amended_witness :
    deepFindTotals (Json.obj [("a", Json.num 1), ("Total", Json.num 4)])
      = collectJson (Json.obj [("a", Json.num 1), ("Total", Json.num 4)]) ∧
    ((7 : Int) ∈ deepFindTotals (Json.obj [("total", Json.num 7),
        ("x", Json.obj [("numResults", Json.num 3)])]) ∧
      ∀ x ∈ deepFindTotals (Json.obj [("total", Json.num 7),
        ("x", Json.obj [("numResults", Json.num 3)])]), x ≤ 7) ∧
    voyagerEmployeesTotal (.ok (Json.obj [("total", Json.num 7)]))
        (.error "x") (.error "x") (.error "x") = (some 7, [1]) := by
  refine ⟨deepFindTotals_cascade_amended.1 _, ?_, ?_⟩
  · exact deepFindTotals_cascade_amended.2.1
      (Json.obj [("total", Json.num 7), ("x", Json.obj [("numResults", Json.num 3)])]) 7
      (by decide)
  · rw [deepFindTotals_cascade_amended.2.2 (.ok (Json.obj [("total", Json.num 7)]))
      (.error "x") (.error "x") (.error "x")]
    rfl

/-! ### C2 -/

theorem containsAt_append_middle :
    ∀ (pre pat suf : List Char), containsAt (pre ++ (pat ++ suf)) pat = true
  | [], pat, suf => by
    cases pat with
    | nil => simp [containsAt]
    | cons c p =>
      have hpre : (c :: p).isPrefixOf ((c :: p) ++ suf) = true := by
        rw [List.isPrefixOf_iff_prefix]
        exact ⟨suf, rfl⟩
      show containsAt (c :: (p ++ suf)) (c :: p) = true
      have heq : containsAt (c :: (p ++ suf)) (c :: p)
          = ((c :: p).isPrefixOf (c :: (p ++ suf)) || containsAt (p ++ suf) (c :: p)) := rfl
      rw [heq]
      have : (c :: p).isPrefixOf (c :: (p ++ suf)) = true := hpre
      rw [this]
      simp
  | c :: pre, pat, suf => by
    cases pat with
    | nil => simp [containsAt]
    | cons d p =>
      have ih := containsAt_append_middle pre (d :: p) suf
      have heq : containsAt ((c :: pre) ++ ((d :: p) ++ suf)) (d :: p)
          = ((d :: p).isPrefixOf ((c :: pre) ++ ((d :: p) ++ suf))
             || containsAt (pre ++ ((d :: p) ++ suf)) (d :: p)) := rfl
      rw [heq, ih]
      simp

theorem containsAt_of_infix {hay pat : List Char} (h : pat <:+: hay) :
    containsAt hay pat = true := by
  rcases h with ⟨s, t, rfl⟩
  rw [List.append_assoc]
  exact containsAt_append_middle s pat t

theorem orgIdErrMsg_includes_each (e1 e2 e3 : String) :
    strIncludes (orgIdErrMsg [e1, e2, e3]) e1 = true ∧
    strIncludes (orgIdErrMsg [e1, e2, e3]) e2 = true ∧
    strIncludes (orgIdErrMsg [e1, e2, e3]) e3 = true := by
  refine ⟨?_, ?_, ?_⟩
  · unfold strIncludes
    refine containsAt_of_infix
      ⟨"Could not resolve organization ID from company page. Attempts: ".data,
       "; ".data ++ e2.data ++ "; ".data ++ e3.data, ?_⟩
    simp [orgIdErrMsg, joinSemi, String.data_append, List.append_assoc]
  · unfold strIncludes
    refine containsAt_of_infix
      ⟨"Could not resolve organization ID from company page. Attempts: ".data
        ++ e1.data ++ "; ".data,
       "; ".data ++ e3.data, ?_⟩
    simp [orgIdErrMsg, joinSemi, String.data_append, List.append_assoc]
  · unfold strIncludes
    refine containsAt_of_infix
      ⟨"Could not resolve organization ID from company page. Attempts: ".data
        ++ e1.data ++ "; ".data ++ e2.data ++ "; ".data,
       [], ?_⟩
    simp [orgIdErrMsg, joinSemi, String.data_append, List.append_assoc]

theorem resolveStep3_found {errs : List String} {r3 : Except String String}
    {fetched : List Nat} {id : String} (h : htmlStepId r3 = some id) :
    resolveStep3 errs r3 fetched = (.ok id, fetched ++ [3]) := by
  rcases r3 with m | html
  · exact Option.noConfusion h
  · simp only [htmlStepId] at h
    simp [resolveStep3, h]

theorem resolveStep3_none {errs : List String} {r3 : Except String String}
    {fetched : List Nat} (h : htmlStepId r3 = none) :
    resolveStep3 errs r3 fetched
      = (.error (orgIdErrMsg (errs ++ [step3Err r3])), fetched ++ [3]) := by
  rcases r3 with m | html
  · simp [resolveStep3, step3Err]
  · simp only [htmlStepId] at h
    simp [resolveStep3, step3Err, h]

theorem resolveSteps23_found2 {errs : List String} {r2 r3 : Except String String}
    {fetched : List Nat} {id : String} (h : htmlStepId r2 = some id) :
    resolveSteps23 errs r2 r3 fetched = (.ok id, fetched ++ [2]) := by
  rcases r2 with m | html
  · exact Option.noConfusion h
  · simp only [htmlStepId] at h
    simp [resolveSteps23, h]

theorem resolveSteps23_none2 {errs : List String} {r2 r3 : Except String String}
    {fetched : List Nat} (h : htmlStepId r2 = none) :
    resolveSteps23 errs r2 r3 fetched
      = resolveStep3 (errs ++ [step2Err r2]) r3 (fetched ++ [2]) := by
  rcases r2 with m | html
  · simp [resolveSteps23, step2Err]
  · simp only [htmlStepId] at h
    simp [resolveSteps23, step2Err, h]

theorem resolveOrgId_step1_some {url : String} {r1 : Except String Json}
    {r2 r3 : Except String String} {id : String} (h : step1Id url r1 = some id) :
    resolveOrgId url r1 r2 r3 = (.ok id, [1]) := by
  rcases hv : extractVanity url with _ | v <;> rcases r1 with m | j <;>
    simp only [step1Id, hv] at h
  · exact Option.noConfusion h
  · exact Option.noConfusion h
  · exact Option.noConfusion h
  · by_cases ht : jsTruthyJson j = true
    · rw [if_pos ht] at h
      unfold resolveOrgId
      rw [hv]
      simp [ht, h]
    · rw [if_neg ht] at h
      exact Option.noConfusion h

theorem resolveOrgId_step1_none {url : String} {r1 : Except String Json}
    {r2 r3 : Except String String} (h : step1Id url r1 = none) :
    resolveOrgId url r1 r2 r3
      = resolveSteps23 [step1Err url r1] r2 r3
          (if (extractVanity url).isSome then [1] else []) := by
  rcases hv : extractVanity url with _ | v <;> rcases r1 with m | j <;>
    simp only [step1Id, hv] at h <;> unfold resolveOrgId step1Err <;> rw [hv]
  · simp
  · simp
  · simp
  · by_cases ht : jsTruthyJson j = true
    · rw [if_pos ht] at h
      simp [ht, h]
    · rw [Bool.not_eq_true] at ht
      simp [ht]

/-- C2: `resolveOrgId` attempts its three identifier sources in the fixed
order vanity-name lookup, company-page markup scan, about-page markup scan; a
later step runs only when every earlier step produced no identifier; each
step's failure is appended to an error list rather than aborting; and when all
three fail it throws a single error whose message contains every step's
individual failure reason concatenated. -/
theorem resolveOrgId_cascade :
    (∀ url r1 r2 r3 id, step1Id url r1 = some id →
      resolveOrgId url r1 r2 r3 = (.ok id, [1])) ∧
    (∀ url r1 r2 r3 id, step1Id url r1 = none → htmlStepId r2 = some id →
      resolveOrgId url r1 r2 r3
        = (.ok id, (if (extractVanity url).isSome then [1] else []) ++ [2])) ∧
    (∀ url r1 r2 r3 id, step1Id url r1 = none → htmlStepId r2 = none →
      htmlStepId r3 = some id →
      resolveOrgId url r1 r2 r3
        = (.ok id, (if (extractVanity url).isSome then [1] else []) ++ [2] ++ [3])) ∧
    (∀ url r1 r2 r3, step1Id url r1 = none → htmlStepId r2 = none → htmlStepId r3 = none →
      resolveOrgId url r1 r2 r3
        = (.error (orgIdErrMsg [step1Err url r1, step2Err r2, step3Err r3]),
           (if (extractVanity url).isSome then [1] else []) ++ [2] ++ [3]) ∧
      strIncludes (orgIdErrMsg [step1Err url r1, step2Err r2, step3Err r3])
          (step1Err url r1) = true ∧
      strIncludes (orgIdErrMsg [step1Err url r1, step2Err r2, step3Err r3])
          (step2Err r2) = true ∧
      strIncludes (orgIdErrMsg [step1Err url r1, step2Err r2, step3Err r3])
          (step3Err r3) = true) := by
  refine ⟨?_, ?_, ?_, ?_⟩
  · intro url r1 r2 r3 id h
    exact resolveOrgId_step1_some h
  · intro url r1 r2 r3 id h1 h2
    rw [resolveOrgId_step1_none h1]
    exact resolveSteps23_found2 h2
  · intro url r1 r2 r3 id h1 h2 h3
    rw [resolveOrgId_step1_none h1, resolveSteps23_none2 h2]
    exact resolveStep3_found h3
  · intro url r1 r2 r3 h1 h2 h3
    refine ⟨?_, (orgIdErrMsg_includes_each _ _ _).1, (orgIdErrMsg_includes_each _ _ _).2.1,
      (orgIdErrMsg_includes_each _ _ _).2.2⟩
    rw [resolveOrgId_step1_none h1, resolveSteps23_none2 h2, resolveStep3_none h3]
    rfl

/-- C2 witness. -/
theorem resolveOrgId_cascade_witness :
    resolveOrgId "microsoft" (.error "HTTP 500 for u") (.error "boom") (.error "bye")
      = (.error (orgIdErrMsg [step1Err "microsoft" (.error "HTTP 500 for u"),
          step2Err (.error "boom"), step3Err (.error "bye")]),
         (if (extractVanity "microsoft").isSome then [1] else []) ++ [2] ++ [3]) ∧
    strIncludes (orgIdErrMsg [step1Err "microsoft" (.error "HTTP 500 for u"),
        step2Err (.error "boom"), step3Err (.error "bye")])
      (step2Err (.error "boom")) = true := by
  have h := resolveOrgId_cascade.2.2.2 "microsoft" (.error "HTTP 500 for u") (.error "boom")
    (.error "bye") rfl rfl rfl
  exact ⟨h.1, h.2.2.1⟩

end LIScraper
